import Mathlib

/-!
Verification of `entrypoint.py` from the gemini-code-review-action-full-context
repository: a shallow embedding of the tool's data model and control flow,
followed by theorems settling the specification's claims.

The tool validates five environment variables, walks the working directory
collecting allow-listed files into one text blob, issues one generation call,
and posts the result as a pull-request review comment.  Network effects are
modelled by oracle functions supplied to `main`, and the sequence of outward
calls is recorded as an explicit event trace.
-/

/-- The five required environment variables, in the order `check_required_env_vars`
scans them (entrypoint.py lines 25-31). -/
def requiredEnvVars : List String :=
  ["GEMINI_API_KEY",
   "GITHUB_TOKEN",
   "GITHUB_REPOSITORY",
   "GITHUB_PULL_REQUEST_NUMBER",
   "GIT_COMMIT_HASH"]

/-- The loop body of `check_required_env_vars`: raise on the first variable whose
`os.getenv` result is `None` (entrypoint.py lines 32-34). -/
def checkVars (env : String → Option String) : List String → Except String Unit
  | [] => .ok ()
  | v :: rest => if (env v).isNone then .error (v ++ " is not set") else checkVars env rest

/-- `check_required_env_vars` (entrypoint.py lines 23-34): scan the required
variables in order, raising `ValueError(f"{var} is not set")` at the first unset one. -/
def check_required_env_vars (env : String → Option String) : Except String Unit :=
  checkVars env requiredEnvVars

/-- `get_review_prompt` (entrypoint.py lines 37-61): the fixed review template with
the extra prompt interpolated before the closing directive. -/
def get_review_prompt (extra_prompt : String) : String :=
  "\n    You are reviewing pull request. The context provided includes the entire project structure and content, followed by the pull request diff.\n\n    As an excellent software engineer and security expert, please analyze the pull request (just the pull request. The whole project is just a reference, so you don\x27t need to review the whole thing, just the pull request) Consider the following:\n\n    1. Overall pull request structure and code quality\n    2. Potential security vulnerabilities in the changed code, if any\n    3. Changes introduced in the pull request\n    4. Improvements or issues in the pull request, if any\n    5. Suggestions for better code organization, performance, or security, if any\n\n    Provide a comprehensive review that includes:\n    - A summary of the pull request structure and any notable patterns or issues\n    - Comments on specific files or sections of pull request that require attention\n    - Detailed analysis of the changes in the pull request\n    - Suggestions for improvements or alternative implementations, if any\n    - Conclusion and Approval/Rejection of the pull request\n\n    "
  ++ extra_prompt
  ++ "\n\n    Please begin your review now.\n    "

/-- `get_summarize_prompt` (entrypoint.py lines 63-74): fixed summary template,
defined but never invoked by `main`. -/
def get_summarize_prompt : String :=
  "\n    Please provide a concise summary of your review, highlighting the most important findings and recommendations. Focus on:\n\n    1. Key strengths and weaknesses of the pull request, if any\n    2. Critical issues or improvements needed in the pull request, if any\n    3. High-priority security concerns, if any\n\n    Your summary should give a clear overview of the impact of the pull request.\n    "

/-- The character-list worker behind `chunk_string`: successive slices of
`chunk_size` characters, as produced by `input_string[i:i + chunk_size]` for
`i in range(0, len(input_string), chunk_size)` (entrypoint.py lines 98-103).
Faithful for `chunk_size >= 1`; Python raises `ValueError` at step 0, which is
outside every use of this definition. -/
def chunkAux (cs : Nat) : List Char → List (List Char)
  | [] => []
  | c :: rest => (c :: rest).take cs :: chunkAux cs (rest.drop (cs - 1))
termination_by l => l.length
decreasing_by simp [List.length_drop]; omega

/-- `chunk_string` (entrypoint.py lines 98-103). -/
def chunk_string (input_string : String) (chunk_size : Nat) : List String :=
  (chunkAux chunk_size input_string.data).map (fun l => String.mk l)

/-- Plain left-to-right concatenation of a list of strings, used to state the
round-trip property of `chunk_string`. -/
def concatStrings (l : List String) : String :=
  l.foldr (fun a b => a ++ b) ""

/-- Harm block thresholds of the generation client; `BLOCK_NONE` is the most
permissive one. -/
inductive HarmBlockThreshold where
  | BLOCK_NONE
  | BLOCK_ONLY_HIGH
  | BLOCK_MEDIUM_AND_ABOVE
  | BLOCK_LOW_AND_ABOVE
deriving DecidableEq

/-- The safety configuration: one threshold per harm category, in the order of
the dict literal at entrypoint.py lines 126-131. -/
structure SafetySettings where
  harassment : HarmBlockThreshold
  hate_speech : HarmBlockThreshold
  sexually_explicit : HarmBlockThreshold
  dangerous_content : HarmBlockThreshold
deriving DecidableEq

/-- The `generation_config` dict of `get_review` (entrypoint.py lines 119-124). -/
structure GenerationConfig where
  temperature : Float
  top_p : Float
  top_k : Nat
  max_output_tokens : Int

/-- Everything `get_review` hands to the generation client: model name,
generation config, safety settings, and the composed input text. -/
structure GenRequest where
  model_name : String
  generation_config : GenerationConfig
  safety_settings : SafetySettings
  input : String

/-- The generation client's response object; the code only ever reads its text
form (and, buggily, passes the whole object around). -/
structure GenResponse where
  text : String
deriving DecidableEq

/-- A value handed to `create_a_comment_to_pull_request` as `body`: Python is
untyped here, and `main` actually passes the raw response object rather than a
string (entrypoint.py line 219). -/
inductive BodyVal where
  | ofString (s : String)
  | ofResponse (r : GenResponse)
deriving DecidableEq

/-- An HTTP response as returned by `requests.post`. -/
structure HttpResponse where
  status : Nat
  body : String
deriving DecidableEq

/-- The outward-visible steps `main` takes, recorded in order. -/
inductive Event where
  | configured (api_key : Option String)
  | generated (req : GenRequest)
  | publish (token repo : String) (prn : Int) (hash : String) (body : BodyVal)
  | posted (url : String) (headers : List (String × String)) (payload : String)

def Event.isGenerated : Event → Bool
  | .generated _ => true
  | _ => false

def Event.isPublish : Event → Bool
  | .publish _ _ _ _ _ => true
  | _ => false

def Event.isPosted : Event → Bool
  | .posted _ _ _ => true
  | _ => false

/-- Whether a trace contains a generation-API call (a network call). -/
def hasGenerated (evs : List Event) : Bool := evs.any Event.isGenerated

/-- Whether a trace contains an invocation of the comment publisher. -/
def hasPublish (evs : List Event) : Bool := evs.any Event.isPublish

/-- Whether a trace contains an actual HTTP POST to the reviews endpoint. -/
def hasPosted (evs : List Event) : Bool := evs.any Event.isPosted

/-- The `body` arguments of the publisher invocations in a trace. -/
def publishBodies (evs : List Event) : List BodyVal :=
  evs.filterMap fun e =>
    match e with
    | .publish _ _ _ _ b => some b
    | _ => none

/-- Escaping a character as `json.dumps` renders it inside a JSON string
(the characters relevant to this development; other control characters do not
occur in the inputs considered). -/
def jsonEscapeChar (c : Char) : String :=
  if c = '\\' then "\\\\"
  else if c = '"' then "\\\""
  else if c = '\n' then "\\n"
  else String.mk [c]

/-- `json.dumps` string escaping. -/
def jsonEscape (s : String) : String :=
  String.join (s.data.map jsonEscapeChar)

/-- The serialized form `json.dumps({"body": body, "commit_id": hash, "event": "COMMENT"})`
takes when `body` is a string (dict insertion order and default separators). -/
def jsonPayload (git_commit_hash : String) (body : String) : String :=
  "\x7b\"body\": \"" ++ jsonEscape body ++ "\", \"commit_id\": \"" ++ jsonEscape git_commit_hash
  ++ "\", \"event\": \"COMMENT\"\x7d"

/-- `json.dumps` applied to the comment dict (entrypoint.py lines 88-94): succeeds
for a string body, raises `TypeError` when handed the raw response object, which
is not JSON serializable. -/
def jsonDumpsComment (git_commit_hash : String) (body : BodyVal) : Except String String :=
  match body with
  | .ofString s => .ok (jsonPayload git_commit_hash s)
  | .ofResponse _ => .error "Object of type GenerateContentResponse is not JSON serializable"

/-- The reviews endpoint URL (entrypoint.py line 93). -/
def urlOf (github_repository : String) (pull_request_number : Int) : String :=
  "https://api.github.com/repos/" ++ github_repository ++ "/pulls/"
  ++ toString pull_request_number ++ "/reviews"

/-- The request headers (entrypoint.py lines 84-87). -/
def headersOf (github_token : String) : List (String × String) :=
  [("Accept", "application/vnd.github.v3.patch"),
   ("authorization", "Bearer " ++ github_token)]

/-- `create_a_comment_to_pull_request` (entrypoint.py lines 77-95): build headers,
data and URL, serialize the data, POST it, and return the raw response unchecked.
The HTTP layer is the oracle `post`; the returned `Event` records the POST. -/
def create_a_comment_to_pull_request
    (post : String → List (String × String) → String → HttpResponse)
    (github_token : String) (github_repository : String) (pull_request_number : Int)
    (git_commit_hash : String) (body : BodyVal) : Except String (HttpResponse × Event) :=
  let headers := headersOf github_token
  let url := urlOf github_repository pull_request_number
  match jsonDumpsComment git_commit_hash body with
  | .error e => .error e
  | .ok payload =>
      let response := post url headers payload
      .ok (response, Event.posted url headers payload)

/-- The constant safety configuration `get_review` always builds
(entrypoint.py lines 126-131): all four harm categories set to `BLOCK_NONE`. -/
def blockNoneSettings : SafetySettings :=
  { harassment := .BLOCK_NONE
    hate_speech := .BLOCK_NONE
    sexually_explicit := .BLOCK_NONE
    dangerous_content := .BLOCK_NONE }

/-- The generation request `get_review` assembles (entrypoint.py lines 106-136):
review prompt from the extra prompt, generation config from the sampling
parameters (`top_k` fixed at 40), the constant safety settings, and the composed
input `f"{review_prompt}\n\nProject Context:\n{context}\n\nPull Request Changes:\n{diff}"`.
`frequency_penalty` and `presence_penalty` are accepted but appear nowhere in the
result, exactly as in the source. -/
def get_review_request (context diff extra_prompt model : String) (temperature : Float)
    (max_tokens : Int) (top_p : Float) (frequency_penalty presence_penalty : Float) :
    GenRequest :=
  let review_prompt := get_review_prompt extra_prompt
  let generation_config : GenerationConfig :=
    { temperature := temperature, top_p := top_p, top_k := 40, max_output_tokens := max_tokens }
  let safety_settings := blockNoneSettings
  let full_input := review_prompt ++ "\n\nProject Context:\n" ++ context
    ++ "\n\nPull Request Changes:\n" ++ diff
  { model_name := model
    generation_config := generation_config
    safety_settings := safety_settings
    input := full_input }

/-- `get_review` (entrypoint.py lines 106-141): build the request and issue the
single `generate_content` call, here the oracle `gen`. -/
def get_review (gen : GenRequest → Except String GenResponse)
    (context diff extra_prompt model : String) (temperature : Float) (max_tokens : Int)
    (top_p : Float) (frequency_penalty presence_penalty : Float) :
    Except String GenResponse :=
  gen (get_review_request context diff extra_prompt model temperature max_tokens top_p
        frequency_penalty presence_penalty)

/-- A file-system tree: the working directory is a list of entries, each a file
with contents or a named subdirectory. -/
inductive FSTree where
  | file (name : String) (content : String)
  | dir (name : String) (entries : List FSTree)

/-- The suffixes accepted by the `file.endswith((...))` test at entrypoint.py
lines 148-151, duplicates included as written. -/
def allowedSuffixes : List String :=
  [".py", ".yml", ".yaml", ".md", ".txt", ".json", ".kt", ".html", ".js",
   ".ts", ".css", ".java", ".c", ".cpp", ".h", ".hpp", ".go", ".rs", ".swift",
   ".sh", ".rb", ".php", ".mdx", ".rs", ".sql", ".ini", ".cfg", ".conf", ".toml",
   ".env", ".cfg", ".conf", ".toml", ".ini", ".txt", ".xml"]

/-- Python's `str.endswith(suffix)`. -/
def pyEndswith (s suffix : String) : Bool :=
  List.isSuffixOf suffix.data s.data

/-- Whether a file name passes the extension allow-list test. -/
def isAllowedFile (name : String) : Bool :=
  allowedSuffixes.any (fun suffix => pyEndswith name suffix)

/-- The files directly in a directory listing, as `os.walk` reports them:
position `[]`, name, content. -/
def filesOfEntries (es : List FSTree) : List (List String × String × String) :=
  es.filterMap fun e =>
    match e with
    | .file n c => some ([], n, c)
    | .dir _ _ => none

/-- The recursive part of `os.walk` with the in-loop pruning
`dirs[:] = [d for d in dirs if d not in exclude_dirs]` (entrypoint.py line 146):
each non-excluded subdirectory is walked depth-first, files of a directory
before its subdirectories, and every yielded file is tagged with the list of
directory names leading to it. -/
def walkSubdirs (ex : List String) : List FSTree → List (List String × String × String)
  | [] => []
  | .file _ _ :: rest => walkSubdirs ex rest
  | .dir d sub :: rest =>
      (if d ∈ ex then []
       else (filesOfEntries sub ++ walkSubdirs ex sub).map (fun t => (d :: t.1, t.2)))
      ++ walkSubdirs ex rest

/-- `os.walk('.')` with pruning: files of the working directory first, then the
pruned recursive walk.  Each element is (directory names from the root, file
name, file content). -/
def walkDir (ex : List String) (es : List FSTree) : List (List String × String × String) :=
  filesOfEntries es ++ walkSubdirs ex es

/-- `os.path.join('.', d1, ..., dk, name)` as built up by the walk. -/
def pathOf (p : List String) (name : String) : String :=
  String.intercalate "/" ("." :: (p ++ [name]))

/-- One accumulated element `f"File: {file_path}\n\n ```{content}```\n\n"`
(entrypoint.py line 155). -/
def fileSection (p : List String) (name content : String) : String :=
  "File: " ++ pathOf p name ++ "\n\n ```" ++ content ++ "```\n\n"

/-- The `project_content` list built by `read_project_files`: a section for every
walked file passing the extension test, in walk order. -/
def projectSections (ex : List String) (es : List FSTree) : List String :=
  ((walkDir ex es).filter (fun t => isAllowedFile t.2.1)).map
    (fun t => fileSection t.1 t.2.1 t.2.2)

/-- `read_project_files` (entrypoint.py lines 143-156): the sections joined with
`'\n'.join(...)`. -/
def read_project_files (exclude_dirs : List String) (es : List FSTree) : String :=
  String.intercalate "\n" (projectSections exclude_dirs es)

/-- A count of the files an `os.walk` with pruning reaches whose name passes the
extension test, computed directly on the tree. -/
def countAllowedList (ex : List String) : List FSTree → Nat
  | [] => 0
  | .file n _ :: rest => (if isAllowedFile n then 1 else 0) + countAllowedList ex rest
  | .dir d sub :: rest =>
      (if d ∈ ex then 0 else countAllowedList ex sub) + countAllowedList ex rest

/-- Reads a non-empty run of decimal digits into the accumulator; `none` on any
non-digit. -/
def decDigitsAux (acc : Nat) : List Char → Option Nat
  | [] => some acc
  | c :: rest => if c.isDigit then decDigitsAux (acc * 10 + (c.toNat - 48)) rest else none

/-- A non-empty all-digit character list as a number. -/
def decDigits : List Char → Option Nat
  | [] => none
  | l => decDigitsAux 0 l

/-- Python's `int(s)` on a string: an optional sign followed by digits
(whitespace stripping and underscore grouping are not modelled; no input of this
development uses them). -/
def pyIntStr (s : String) : Option Int :=
  match s.data with
  | '-' :: rest => (decDigits rest).map (fun n => -(n : Int))
  | '+' :: rest => (decDigits rest).map (fun n => (n : Int))
  | l => (decDigits l).map (fun n => (n : Int))

/-- Python's `int()` applied to an `os.getenv` result (entrypoint.py line 217):
`TypeError` on `None`, `ValueError` on a string that is not an integer literal. -/
def pyInt (o : Option String) : Except String Int :=
  match o with
  | none => .error "int() argument must be a string, a bytes-like object or a real number, not NoneType"
  | some s =>
      match pyIntStr s with
      | some i => .ok i
      | none => .error ("invalid literal for int() with base 10: " ++ s)

/-- How a possibly-missing `os.getenv` result reads when interpolated into an
f-string (`None` renders as `"None"`); in `main` this is only applied after the
environment check has succeeded, so the `none` branch is unreachable there. -/
def pyGetStr (o : Option String) : String :=
  match o with
  | some s => s
  | none => "None"

/-- The level names known to the logger; `logger.level(name)` raises for any
other name (entrypoint.py line 183). -/
def loguruLevels : List String :=
  ["TRACE", "DEBUG", "INFO", "SUCCESS", "WARNING", "ERROR", "CRITICAL"]

/-- The `logger.level(log_level)` lookup at the top of `main`. -/
def loggerLevel (name : String) : Except String Unit :=
  if name ∈ loguruLevels then .ok () else .error ("Level " ++ name ++ " does not exist")

/-- The CLI options of `main` (entrypoint.py lines 159-181), after parsing. -/
structure CliArgs where
  diff : String
  diff_chunk_size : Int
  model : String
  extra_prompt : String
  temperature : Float
  max_tokens : Int
  top_p : Float
  frequency_penalty : Float
  presence_penalty : Float
  log_level : String

/-- The process environment, the working tree, and the two network oracles
`main` runs against. -/
structure MainWorld where
  env : String → Option String
  tree : List FSTree
  genOracle : GenRequest → Except String GenResponse
  postOracle : String → List (String × String) → String → HttpResponse

/-- The generation request `main` ends up submitting, for stating theorems. -/
def mainGenRequest (w : MainWorld) (a : CliArgs) : GenRequest :=
  get_review_request (read_project_files [".github", ".idea"] w.tree) a.diff a.extra_prompt
    a.model a.temperature a.max_tokens a.top_p a.frequency_penalty a.presence_penalty

/-- `main` (entrypoint.py lines 170-220) — named `mainEntry` here because Lean
reserves the name `main` for executables.  In source order: logger level lookup,
environment check, `genai.configure`, project read, `get_review`, then
`create_a_comment_to_pull_request` with `int(os.getenv("GITHUB_PULL_REQUEST_NUMBER"))`
converted while evaluating the call's arguments and — as in the source — with
`body=review`, the raw response object.  The result is the process outcome
paired with the trace of outward steps. -/
def mainEntry (w : MainWorld) (a : CliArgs) : Except String HttpResponse × List Event :=
  match loggerLevel a.log_level with
  | .error e => (.error e, [])
  | .ok _ =>
    match check_required_env_vars w.env with
    | .error e => (.error e, [])
    | .ok _ =>
      let api_key := w.env "GEMINI_API_KEY"
      let project_content := read_project_files [".github", ".idea"] w.tree
      match get_review w.genOracle project_content a.diff a.extra_prompt a.model
          a.temperature a.max_tokens a.top_p a.frequency_penalty a.presence_penalty with
      | .error e => (.error e, [.configured api_key, .generated (mainGenRequest w a)])
      | .ok review =>
        let evs := [Event.configured api_key, Event.generated (mainGenRequest w a)]
        match pyInt (w.env "GITHUB_PULL_REQUEST_NUMBER") with
        | .error e => (.error e, evs)
        | .ok pull_request_number =>
          let github_token := pyGetStr (w.env "GITHUB_TOKEN")
          let github_repository := pyGetStr (w.env "GITHUB_REPOSITORY")
          let git_commit_hash := pyGetStr (w.env "GIT_COMMIT_HASH")
          let body := BodyVal.ofResponse review
          let evs := evs ++ [Event.publish github_token github_repository pull_request_number
                              git_commit_hash body]
          match create_a_comment_to_pull_request w.postOracle github_token github_repository
              pull_request_number git_commit_hash body with
          | .error e => (.error e, evs)
          | .ok (response, postEv) => (.ok response, evs ++ [postEv])

/-- A fully populated environment for concrete runs. -/
def envFull : String → Option String := fun v =>
  if v = "GEMINI_API_KEY" then some "k"
  else if v = "GITHUB_TOKEN" then some "t"
  else if v = "GITHUB_REPOSITORY" then some "o/r"
  else if v = "GITHUB_PULL_REQUEST_NUMBER" then some "123"
  else if v = "GIT_COMMIT_HASH" then some "abc123"
  else none

/-- An environment with every required variable set to the empty string. -/
def envEmptyStr : String → Option String := fun v =>
  if v ∈ requiredEnvVars then some "" else none

/-- An environment in which only the API key is set, so `GITHUB_TOKEN` is the
first missing variable. -/
def envOnlyKey : String → Option String := fun v =>
  if v = "GEMINI_API_KEY" then some "k" else none

/-- A post oracle that always answers 200 OK. -/
def ok200 : String → List (String × String) → String → HttpResponse :=
  fun _ _ _ => { status := 200, body := "ok" }

/-- The CLI arguments of the spec's end-to-end scenario, with every default. -/
def a0 : CliArgs :=
  { diff := "diff --git a/a.py b/a.py"
    diff_chunk_size := 3500
    model := "gemini-1.5-flash"
    extra_prompt := ""
    temperature := 0.1
    max_tokens := 8192
    top_p := 1.0
    frequency_penalty := 0.0
    presence_penalty := 0.0
    log_level := "INFO" }

/-- The spec's end-to-end scenario: full environment, one file `a.py` containing
`print(1)`, a generation client that answers with text `LGTM`, an HTTP layer
answering 200. -/
def w0 : MainWorld :=
  { env := envFull
    tree := [FSTree.file "a.py" "print(1)"]
    genOracle := fun _ => .ok { text := "LGTM" }
    postOracle := ok200 }

/-- The end-to-end scenario with all five variables set to the empty string. -/
def wEmpty : MainWorld :=
  { env := envEmptyStr
    tree := []
    genOracle := fun _ => .ok { text := "LGTM" }
    postOracle := ok200 }

/-- A world whose environment misses every variable after the API key. -/
def wOnlyKey : MainWorld :=
  { env := envOnlyKey
    tree := []
    genOracle := fun _ => .ok { text := "LGTM" }
    postOracle := ok200 }

/-- A world whose generation client fails with a quota error. -/
def wGenFail : MainWorld :=
  { env := envFull
    tree := []
    genOracle := fun _ => .error "429 Resource has been exhausted"
    postOracle := ok200 }

/-- Default excluded directories of `read_project_files`. -/
def ex0 : List String := [".github", ".idea"]

/-- A small working tree exercising the walk: two top-level files (one allowed,
one not), an ordinary subdirectory, and an excluded one. -/
def tree1 : List FSTree :=
  [FSTree.file "a.py" "print(1)",
   FSTree.file "b.exe" "bin",
   FSTree.dir "src" [FSTree.file "m.py" "pass"],
   FSTree.dir ".github" [FSTree.file "wf.yml" "x"]]

theorem checkVars_ok_iff (env : String → Option String) (vars : List String) :
    checkVars env vars = .ok () ↔ ∀ v ∈ vars, (env v).isSome = true := by
  induction vars with
  | nil => simp [checkVars]
  | cons v rest ih =>
    cases henv : env v with
    | none =>
      constructor
      · intro hc
        simp [checkVars, henv] at hc
      · intro hall
        have h1 := hall v (List.mem_cons_self v rest)
        rw [henv] at h1
        simp at h1
    | some s =>
      have hstep : checkVars env (v :: rest) = checkVars env rest := by
        simp [checkVars, henv]
      rw [hstep, ih]
      constructor
      · intro hall u hu
        rcases List.mem_cons.mp hu with h | h
        · subst h; simp [henv]
        · exact hall u h
      · intro hall u hu
        exact hall u (List.mem_cons.mpr (Or.inr hu))

theorem checkVars_find_error (env : String → Option String) (vars : List String) (v : String)
    (h : vars.find? (fun u => (env u).isNone) = some v) :
    checkVars env vars = .error (v ++ " is not set") := by
  induction vars with
  | nil => simp [List.find?] at h
  | cons u rest ih =>
    by_cases hu : (env u).isNone
    · rw [List.find?_cons_of_pos _ (by simpa using hu)] at h
      cases h
      simp [checkVars, hu]
    · rw [List.find?_cons_of_neg _ (by simpa using hu)] at h
      simp [checkVars, hu, ih h]

theorem mainEntry_trace_empty_of_check_error (w : MainWorld) (a : CliArgs) (e : String)
    (h : check_required_env_vars w.env = .error e) :
    (mainEntry w a).2 = [] := by
  cases hl : loggerLevel a.log_level with
  | error e2 => simp [mainEntry, hl]
  | ok u => cases u; simp [mainEntry, hl, h]

theorem filesOfEntries_fst (es : List FSTree) (t : List String × String × String)
    (h : t ∈ filesOfEntries es) : t.1 = [] := by
  simp only [filesOfEntries, List.mem_filterMap] at h
  obtain ⟨e, _, he⟩ := h
  cases e with
  | file n c => simp at he; subst he; rfl
  | dir d sub => simp at he

theorem walkSubdirs_not_excluded (ex : List String) (es : List FSTree) :
    ∀ t ∈ walkSubdirs ex es, ∀ d ∈ t.1, d ∉ ex := by
  induction es using walkSubdirs.induct ex with
  | case1 => simp [walkSubdirs]
  | case2 name content rest ih =>
    rw [walkSubdirs]
    exact ih
  | case3 d sub rest ihsub ihrest =>
    intro t ht
    rw [walkSubdirs] at ht
    rcases List.mem_append.mp ht with hl | hr
    · by_cases hd : d ∈ ex
      · simp [hd] at hl
      · simp only [hd, if_false, List.mem_map] at hl
        obtain ⟨u, hu, hut⟩ := hl
        subst hut
        intro d2 hd2 hex
        rcases List.mem_cons.mp hd2 with h2 | h2
        · subst h2; exact hd hex
        · rcases List.mem_append.mp hu with hf | hw
          · rw [filesOfEntries_fst sub u hf] at h2
            simp at h2
          · exact ihsub u hw d2 h2 hex
    · exact ihrest t hr

theorem walkDir_not_excluded (ex : List String) (es : List FSTree)
    (t : List String × String × String) (ht : t ∈ walkDir ex es) :
    ∀ d ∈ t.1, d ∉ ex := by
  rcases List.mem_append.mp ht with hf | hw
  · rw [filesOfEntries_fst es t hf]
    simp
  · exact walkSubdirs_not_excluded ex es t hw

theorem walkDir_filter_length (ex : List String) (es : List FSTree) :
    ((walkDir ex es).filter (fun t => isAllowedFile t.2.1)).length = countAllowedList ex es := by
  induction es using countAllowedList.induct ex with
  | case1 => simp [walkDir, walkSubdirs, filesOfEntries, countAllowedList]
  | case2 name content rest ih =>
    rw [countAllowedList, ← ih]
    simp only [walkDir, filesOfEntries, walkSubdirs, List.filterMap_cons]
    by_cases hn : isAllowedFile name
    · simp [List.filter_append, hn]; omega
    · simp [List.filter_append, hn]
  | case3 d sub rest ihsub ihrest =>
    rw [countAllowedList, ← ihsub, ← ihrest]
    simp only [walkDir, filesOfEntries, walkSubdirs, List.filterMap_cons]
    by_cases hd : d ∈ ex
    · simp [List.filter_append, hd]
    · have hcomp : ((fun t : List String × String × String => isAllowedFile t.2.1) ∘
          (fun t : List String × String × String => (d :: t.1, t.2)))
          = fun t : List String × String × String => isAllowedFile t.2.1 := by
        funext t; rfl
      simp only [hd, if_false, List.filter_append, List.length_append,
        List.filter_map, hcomp, List.length_map]
      omega

theorem chunkAux_cons (cs : Nat) (h : 1 ≤ cs) (c : Char) (rest : List Char) :
    chunkAux cs (c :: rest)
      = (c :: rest).take cs :: chunkAux cs ((c :: rest).drop cs) := by
  obtain ⟨k, rfl⟩ : ∃ k, cs = k + 1 := ⟨cs - 1, by omega⟩
  rw [chunkAux]
  simp

theorem chunkAux_eq_nil_iff (cs : Nat) (l : List Char) :
    chunkAux cs l = [] ↔ l = [] := by
  cases l with
  | nil => simp [chunkAux]
  | cons c rest => rw [chunkAux]; simp

theorem chunkAux_flatten (cs : Nat) (h : 1 ≤ cs) :
    ∀ n l, List.length l ≤ n → (chunkAux cs l).flatten = l := by
  intro n
  induction n with
  | zero =>
    intro l hl
    have : l = [] := List.length_eq_zero.mp (by omega)
    subst this
    simp [chunkAux]
  | succ n ih =>
    intro l hl
    cases l with
    | nil => simp [chunkAux]
    | cons c rest =>
      rw [chunkAux_cons cs h, List.flatten_cons,
        ih ((c :: rest).drop cs) (by simp [List.length_drop] at hl ⊢; omega),
        List.take_append_drop]

theorem chunkAux_mem_length (cs : Nat) (h : 1 ≤ cs) :
    ∀ n l, List.length l ≤ n → ∀ ch ∈ chunkAux cs l, 1 ≤ ch.length ∧ ch.length ≤ cs := by
  intro n
  induction n with
  | zero =>
    intro l hl
    have : l = [] := List.length_eq_zero.mp (by omega)
    subst this
    simp [chunkAux]
  | succ n ih =>
    intro l hl
    cases l with
    | nil => simp [chunkAux]
    | cons c rest =>
      rw [chunkAux_cons cs h]
      intro ch hch
      rcases List.mem_cons.mp hch with h1 | h1
      · subst h1
        simp [List.length_take]
        omega
      · exact ih ((c :: rest).drop cs) (by simp [List.length_drop] at hl ⊢; omega) ch h1

theorem chunkAux_dropLast_length (cs : Nat) (h : 1 ≤ cs) :
    ∀ n l, List.length l ≤ n → ∀ ch ∈ (chunkAux cs l).dropLast, ch.length = cs := by
  intro n
  induction n with
  | zero =>
    intro l hl
    have : l = [] := List.length_eq_zero.mp (by omega)
    subst this
    simp [chunkAux]
  | succ n ih =>
    intro l hl
    cases l with
    | nil => simp [chunkAux]
    | cons c rest =>
      rw [chunkAux_cons cs h]
      cases htail : chunkAux cs ((c :: rest).drop cs) with
      | nil => simp
      | cons ch2 chs =>
        rw [List.dropLast_cons₂]
        intro ch hch
        rcases List.mem_cons.mp hch with h1 | h1
        · subst h1
          have hne : (c :: rest).drop cs ≠ [] := by
            intro hnil
            rw [hnil] at htail
            simp [chunkAux] at htail
          have hlen : cs ≤ rest.length := by
            by_contra hcon
            push_neg at hcon
            exact hne (List.drop_eq_nil_of_le (by simp; omega))
          simp [List.length_take]
          omega
        · rw [← htail] at h1
          exact ih ((c :: rest).drop cs) (by simp [List.length_drop] at hl ⊢; omega) ch h1

theorem concatStrings_map_mk (ls : List (List Char)) :
    concatStrings (ls.map (fun l => String.mk l)) = String.mk ls.flatten := by
  induction ls with
  | nil => rfl
  | cons a t ih =>
    simp only [List.map_cons, concatStrings, List.foldr_cons, List.flatten_cons]
    rw [show List.foldr (fun a b => a ++ b) "" (t.map (fun l => String.mk l))
          = concatStrings (t.map (fun l => String.mk l)) from rfl, ih]
    rfl

theorem dropLast_map_comm {α β : Type} (f : α → β) (l : List α) :
    (l.map f).dropLast = l.dropLast.map f := by
  induction l with
  | nil => rfl
  | cons a t ih =>
    cases t with
    | nil => rfl
    | cons b t2 =>
      rw [List.map_cons f a, List.map_cons f b, List.dropLast_cons₂,
        List.dropLast_cons₂, List.map_cons f a, ← List.map_cons f b, ih]

/-- C10: for every string `s` and every `chunk_size ≥ 1`, the chunks of
`chunk_string s chunk_size` concatenate back to `s` in order, every chunk except
possibly the last has length exactly `chunk_size`, every chunk has length
between 1 and `chunk_size`, and the list is empty exactly when `s` is empty. -/
theorem chunk_string_spec (s : String) (chunk_size : Nat) (h : 1 ≤ chunk_size) :
    concatStrings (chunk_string s chunk_size) = s ∧
    (∀ ch ∈ (chunk_string s chunk_size).dropLast, ch.length = chunk_size) ∧
    (∀ ch ∈ chunk_string s chunk_size, 1 ≤ ch.length ∧ ch.length ≤ chunk_size) ∧
    (chunk_string s chunk_size = [] ↔ s = "") := by
  refine ⟨?_, ?_, ?_, ?_⟩
  · rw [chunk_string, concatStrings_map_mk,
      chunkAux_flatten chunk_size h s.data.length s.data (le_refl _)]
  · intro ch hch
    rw [chunk_string, dropLast_map_comm] at hch
    obtain ⟨l, hl, rfl⟩ := List.mem_map.mp hch
    exact chunkAux_dropLast_length chunk_size h s.data.length s.data (le_refl _) l hl
  · intro ch hch
    rw [chunk_string] at hch
    obtain ⟨l, hl, rfl⟩ := List.mem_map.mp hch
    exact chunkAux_mem_length chunk_size h s.data.length s.data (le_refl _) l hl
  · rw [chunk_string]
    constructor
    · intro hnil
      have := List.map_eq_nil_iff.mp hnil
      have hd := (chunkAux_eq_nil_iff chunk_size s.data).mp this
      exact String.ext hd
    · intro hs
      subst hs
      rw [List.map_eq_nil_iff, chunkAux_eq_nil_iff]

/-- Witness for C10 at `s = "abcde"`, `chunk_size = 2`. -/
theorem chunk_string_spec_witness :
    concatStrings (chunk_string "abcde" 2) = "abcde" :=
  (chunk_string_spec "abcde" 2 (by omega)).1

/-- C1: at the spec's end-to-end scenario (environment fully set, one file
`a.py`, the generation client answering text `LGTM`, HTTP layer answering 200)
the code diverges from the claim: the publisher is invoked with the raw response
object as `body` — not the response's text `"LGTM"` — so `json.dumps` raises and
no POST to the reviews URL ever happens; `main` dies with the `TypeError`. -/
theorem end_to_end_body_is_raw_object :
    (mainEntry w0 a0).1 = .error "Object of type GenerateContentResponse is not JSON serializable" ∧
    publishBodies (mainEntry w0 a0).2 = [BodyVal.ofResponse { text := "LGTM" }] ∧
    BodyVal.ofResponse { text := "LGTM" } ≠ BodyVal.ofString "LGTM" ∧
    hasPosted (mainEntry w0 a0).2 = false :=
  ⟨rfl, rfl, by decide, rfl⟩

/-- C2 counterexample: an environment with all five required variables set to
the empty string passes the validator, and the end-to-end run then issues the
generation network call — the process does not abort before a network call. -/
theorem empty_string_env_not_rejected :
    check_required_env_vars envEmptyStr = .ok () ∧
    hasGenerated (mainEntry wEmpty a0).2 = true :=
  ⟨rfl, rfl⟩

/-- C2 (amended): the validator accepts exactly the environments in which all
five required variables are set — a variable set to the empty string counts as
set and does not abort the process — and when some variable is unset the process
aborts with an empty trace, before any network call. -/
theorem check_required_env_vars_set_iff (env : String → Option String) :
    (check_required_env_vars env = .ok () ↔ ∀ v ∈ requiredEnvVars, (env v).isSome = true) ∧
    (∀ w : MainWorld, ∀ a : CliArgs, ∀ e : String, w.env = env →
      check_required_env_vars env = .error e → (mainEntry w a).2 = []) := by
  constructor
  · exact checkVars_ok_iff env requiredEnvVars
  · intro w a e hw he
    refine mainEntry_trace_empty_of_check_error w a e ?_
    rw [hw]
    exact he

/-- Witness for the amended C2 at the all-empty-strings environment. -/
theorem check_required_env_vars_set_iff_witness :
    check_required_env_vars envEmptyStr = .ok () :=
  (check_required_env_vars_set_iff envEmptyStr).1.mpr (by decide)

/-- C3: when some required variable is unset, `check_required_env_vars` raises
the configuration error naming the first missing variable in the fixed scan
order, and the run's trace is empty — no network call was attempted. -/
theorem check_first_missing_named (w : MainWorld) (a : CliArgs) (v : String)
    (h : requiredEnvVars.find? (fun u => (w.env u).isNone) = some v) :
    check_required_env_vars w.env = .error (v ++ " is not set") ∧ (mainEntry w a).2 = [] := by
  have he := checkVars_find_error w.env requiredEnvVars v h
  exact ⟨he, mainEntry_trace_empty_of_check_error w a (v ++ " is not set") he⟩

/-- Witness for C3: with only the API key set, the first missing variable in the
fixed order is `GITHUB_TOKEN`. -/
theorem check_first_missing_named_witness :
    check_required_env_vars wOnlyKey.env = .error ("GITHUB_TOKEN" ++ " is not set") ∧
    (mainEntry wOnlyKey a0).2 = [] :=
  check_first_missing_named wOnlyKey a0 "GITHUB_TOKEN" (by decide)

/-- C4: for every combination of CLI inputs the generation request built by
`get_review` has all four harm categories at the most permissive threshold
`BLOCK_NONE`; no flag influences the safety configuration, and `get_review`
submits exactly this request. -/
theorem get_review_safety_always_block_none (gen : GenRequest → Except String GenResponse)
    (context diff extra_prompt model : String) (temperature : Float) (max_tokens : Int)
    (top_p : Float) (frequency_penalty presence_penalty : Float) :
    (get_review_request context diff extra_prompt model temperature max_tokens top_p
        frequency_penalty presence_penalty).safety_settings.harassment
      = HarmBlockThreshold.BLOCK_NONE ∧
    (get_review_request context diff extra_prompt model temperature max_tokens top_p
        frequency_penalty presence_penalty).safety_settings.hate_speech
      = HarmBlockThreshold.BLOCK_NONE ∧
    (get_review_request context diff extra_prompt model temperature max_tokens top_p
        frequency_penalty presence_penalty).safety_settings.sexually_explicit
      = HarmBlockThreshold.BLOCK_NONE ∧
    (get_review_request context diff extra_prompt model temperature max_tokens top_p
        frequency_penalty presence_penalty).safety_settings.dangerous_content
      = HarmBlockThreshold.BLOCK_NONE ∧
    get_review gen context diff extra_prompt model temperature max_tokens top_p
        frequency_penalty presence_penalty
      = gen (get_review_request context diff extra_prompt model temperature max_tokens top_p
          frequency_penalty presence_penalty) :=
  ⟨rfl, rfl, rfl, rfl, rfl⟩

/-- C5: the output of `read_project_files` is the newline join of exactly one
section per walked file passing the extension allow-list (`countAllowedList`
counts them on the tree), and every section is the `File:` header plus fenced
content of such a file — excluded-extension files contribute nothing. -/
theorem read_project_files_sections (ex : List String) (tree : List FSTree) :
    (projectSections ex tree).length = countAllowedList ex tree ∧
    (∀ s ∈ projectSections ex tree, ∃ p n c, (p, n, c) ∈ walkDir ex tree ∧
      isAllowedFile n = true ∧
      s = "File: " ++ pathOf p n ++ "\n\n ```" ++ c ++ "```\n\n") ∧
    read_project_files ex tree = String.intercalate "\n" (projectSections ex tree) := by
  refine ⟨?_, ?_, rfl⟩
  · rw [projectSections, List.length_map]
    exact walkDir_filter_length ex tree
  · intro s hs
    rw [projectSections] at hs
    obtain ⟨t, ht, rfl⟩ := List.mem_map.mp hs
    obtain ⟨htw, hta⟩ := List.mem_filter.mp ht
    exact ⟨t.1, t.2.1, t.2.2, htw, by simpa using hta, rfl⟩

/-- Witness for C5: in the sample tree the section of `./a.py` is produced from
an allow-listed walked file. -/
theorem read_project_files_sections_witness :
    ∃ p n c, (p, n, c) ∈ walkDir ex0 tree1 ∧ isAllowedFile n = true ∧
      fileSection [] "a.py" "print(1)"
        = "File: " ++ pathOf p n ++ "\n\n ```" ++ c ++ "```\n\n" :=
  (read_project_files_sections ex0 tree1).2.1 (fileSection [] "a.py" "print(1)")
    (by
      have hwalk : walkDir ex0 tree1
          = [([], "a.py", "print(1)"), ([], "b.exe", "bin"), (["src"], "m.py", "pass")] := by
        simp [walkDir, walkSubdirs, filesOfEntries, ex0, tree1]
      rw [projectSections, hwalk]
      decide)

/-- C6: a file reached through a directory whose name is in the excluded set —
at any nesting depth — is never yielded by the pruned walk, so neither its
header nor its content can appear in the output; indeed every walked file's
directory path avoids the excluded set entirely. -/
theorem excluded_dir_file_not_walked (ex : List String) (tree : List FSTree)
    (p : List String) (n c d : String) (hd : d ∈ p) (hex : d ∈ ex) :
    (p, n, c) ∉ walkDir ex tree ∧ ∀ t ∈ walkDir ex tree, ∀ d2 ∈ t.1, d2 ∉ ex := by
  refine ⟨?_, fun t ht => walkDir_not_excluded ex tree t ht⟩
  intro hmem
  exact walkDir_not_excluded ex tree (p, n, c) hmem d hd hex

/-- Witness for C6: the workflow file inside `.github` is absent from the walk
of the sample tree. -/
theorem excluded_dir_file_not_walked_witness :
    ([".github"], "wf.yml", "x") ∉ walkDir ex0 tree1 :=
  (excluded_dir_file_not_walked ex0 tree1 [".github"] "wf.yml" "x" ".github"
    (by decide) (by decide)).1

/-- C7: two `get_review` invocations agreeing on everything except
`frequency_penalty` and `presence_penalty` build identical generation requests
(same generation config, same composed input) and make the identical client
call — the two penalties are dead parameters. -/
theorem get_review_penalties_dead (gen : GenRequest → Except String GenResponse)
    (context diff extra_prompt model : String) (temperature : Float) (max_tokens : Int)
    (top_p : Float) (fp1 pp1 fp2 pp2 : Float) :
    get_review_request context diff extra_prompt model temperature max_tokens top_p fp1 pp1
      = get_review_request context diff extra_prompt model temperature max_tokens top_p fp2 pp2 ∧
    get_review gen context diff extra_prompt model temperature max_tokens top_p fp1 pp1
      = get_review gen context diff extra_prompt model temperature max_tokens top_p fp2 pp2 :=
  ⟨rfl, rfl⟩

/-- C8: failure atomicity — if the environment check fails, the run has an empty
trace (publisher never invoked, nothing posted) and the process fails; if the
generation call fails, the process terminates with exactly that error and the
publisher is never invoked — no POST occurs. -/
theorem pipeline_failure_atomicity (w : MainWorld) (a : CliArgs) (e : String) :
    (check_required_env_vars w.env = .error e →
      (mainEntry w a).2 = [] ∧ (mainEntry w a).1.isOk = false) ∧
    (loggerLevel a.log_level = .ok () → check_required_env_vars w.env = .ok () →
      w.genOracle (mainGenRequest w a) = .error e →
      (mainEntry w a).1 = .error e ∧ hasPublish (mainEntry w a).2 = false ∧
      hasPosted (mainEntry w a).2 = false) := by
  constructor
  · intro hc
    refine ⟨mainEntry_trace_empty_of_check_error w a e hc, ?_⟩
    cases hl : loggerLevel a.log_level with
    | error e2 => simp [mainEntry, hl, Except.isOk, Except.toBool]
    | ok u => cases u; simp [mainEntry, hl, hc, Except.isOk, Except.toBool]
  · intro hl hc hg
    rw [mainGenRequest] at hg
    simp [mainEntry, hl, hc, get_review, hg, hasPublish, hasPosted,
      Event.isPublish, Event.isPosted]

/-- Witness for C8: a generation quota error surfaces as the process error and
leaves the publisher untouched. -/
theorem pipeline_failure_atomicity_witness :
    (mainEntry wGenFail a0).1 = .error "429 Resource has been exhausted" ∧
    hasPublish (mainEntry wGenFail a0).2 = false ∧
    hasPosted (mainEntry wGenFail a0).2 = false :=
  (pipeline_failure_atomicity wGenFail a0 "429 Resource has been exhausted").2 rfl rfl rfl

/-- C9 counterexample: in the end-to-end scenario the HTTP oracle answers 200,
yet `main` does not complete successfully — serialization of the raw response
object fails before any POST, so success is not independent of circumstances as
the claim requires ("main completes successfully regardless of the response
status" is false). -/
theorem main_not_complete_despite_ok_response :
    (mainEntry w0 a0).1.isOk = false ∧ hasPosted (mainEntry w0 a0).2 = false :=
  ⟨rfl, rfl⟩

/-- C9 (amended): given a string body, `create_a_comment_to_pull_request` issues
the single POST and returns the oracle's raw response unchanged — whatever its
status, with no inspection and no retry; `main` never checks a status either,
but it does not complete successfully, failing at body serialization before the
POST. -/
theorem create_comment_fire_and_forget
    (post : String → List (String × String) → String → HttpResponse)
    (github_token github_repository : String) (pull_request_number : Int)
    (git_commit_hash : String) (s : String) :
    create_a_comment_to_pull_request post github_token github_repository
        pull_request_number git_commit_hash (BodyVal.ofString s)
      = .ok (post (urlOf github_repository pull_request_number) (headersOf github_token)
               (jsonPayload git_commit_hash s),
             Event.posted (urlOf github_repository pull_request_number)
               (headersOf github_token) (jsonPayload git_commit_hash s)) :=
  rfl
